import Mathlib

/-
  Verification development for the Structured Extraction Orchestrator
  (src/cloudflare-planner/worker/src/ai-toolbox/llm/structuredResponseTool.js).

  The JavaScript code is shallowly embedded: JS values are the inductive
  `Value` (with `vundefined` for `undefined` distinct from `vnull`), JS objects
  are insertion-ordered association lists `List (String × Value)`, Zod
  schemas are the inductive `ZodType` with a `zparse` semantics modelling
  `schema.parse` (strip mode), and the asynchronous backend `env.AI.run`
  is an oracle parameter.  Text is modelled as `List Char` (JS strings are
  UTF-16 code units; the difference is irrelevant to the properties here).
-/

namespace SRT

/-- A JavaScript value.  `vnull` and `vundefined` model `null` and `undefined`;
objects are insertion-ordered association lists. -/
inductive Value where
  | vnull : Value
  | vundefined : Value
  | vbool : Bool → Value
  | vnum : Int → Value
  | vstr : String → Value
  | varr : List Value → Value
  | vobj : List (String × Value) → Value

/-- JS truthiness: `null`, `undefined`, `false`, `0` and `""` are falsy;
every array and object (even empty) is truthy. -/
def truthy : Value → Bool
  | .vnull => false
  | .vundefined => false
  | .vbool b => b
  | .vnum n => n != 0
  | .vstr s => !s.isEmpty
  | .varr _ => true
  | .vobj _ => true

/-- Property read on an association-list object: `none` means the key is
absent (JS would yield `undefined` from `obj[key]`). -/
def jget : List (String × Value) → String → Option Value
  | [], _ => none
  | (k, v) :: rest, key => if k = key then some v else jget rest key

/-- The JS `key in obj` test: present even when the stored value is
`undefined`. -/
def hasKey (fields : List (String × Value)) (key : String) : Bool :=
  (jget fields key).isSome

/-- Property write: updates the first (only, in real JS) occurrence in
place, preserving insertion order, else appends — exactly JS assignment
and spread-override semantics. -/
def jset : List (String × Value) → String → Value → List (String × Value)
  | [], key, v => [(key, v)]
  | (k, w) :: rest, key, v =>
      if k = key then (k, v) :: rest else (k, w) :: jset rest key v

/-- The JS `delete obj[key]`. -/
def jdel (fields : List (String × Value)) (key : String) : List (String × Value) :=
  fields.filter (fun kv => kv.1 ≠ key)

/-- Own enumerable entries of a value, as used by object spread `{...v}`
and `for (const key in v)`: objects give their fields, arrays and strings
give index-keyed entries, primitives give nothing. -/
def spreadToObj : Value → List (String × Value)
  | .vobj fields => fields
  | .varr xs => xs.enum.map (fun iv => (toString iv.1, iv.2))
  | .vstr s => s.toList.enum.map (fun ic => (toString ic.1, .vstr (String.singleton ic.2)))
  | _ => []

/-- Spread-merge `{...a, ...b}`: entries of `b` override `a` one level
deep, keeping the position of overridden keys. -/
def objSpread (a b : List (String × Value)) : List (String × Value) :=
  b.foldl (fun acc kv => jset acc kv.1 kv.2) a

/-- Optional-chaining property access `v?.key` (and plain access on the
non-null receivers appearing in the source): non-objects yield
`undefined`. -/
def getProp : Value → String → Value
  | .vobj fields, key => (jget fields key).getD .vundefined
  | _, _ => .vundefined

/-- The Zod schema constructions used by the repository:
`z.string()`, `z.number()`, `z.boolean()`, `z.any()`, `z.literal`,
`z.array`, `z.object`, `z.record(z.any())`, `.optional()`,
`.default(d)` and `z.union`. -/
inductive ZodType where
  | zstring : ZodType
  | znumber : ZodType
  | zboolean : ZodType
  | zany : ZodType
  | zliteral : String → ZodType
  | zarray : ZodType → ZodType
  | zobject : List (String × ZodType) → ZodType
  | zrecord : ZodType
  | zoptional : ZodType → ZodType
  | zdefault : ZodType → Value → ZodType
  | zunion : List ZodType → ZodType

/-- The Zod `_def.typeName` tag read by `fillMissingFields`. -/
def typeName : ZodType → String
  | .zstring => "ZodString"
  | .znumber => "ZodNumber"
  | .zboolean => "ZodBoolean"
  | .zany => "ZodAny"
  | .zliteral _ => "ZodLiteral"
  | .zarray _ => "ZodArray"
  | .zobject _ => "ZodObject"
  | .zrecord => "ZodRecord"
  | .zoptional _ => "ZodOptional"
  | .zdefault _ _ => "ZodDefault"
  | .zunion _ => "ZodUnion"

/-- `schema.shape`: only `z.object` schemas expose a shape; on every other
schema the property read yields `undefined`, modelled as `none`. -/
def shapeOf : ZodType → Option (List (String × ZodType))
  | .zobject props => some props
  | _ => none

mutual

/-- A structural size of a schema, used as recursion fuel for the parse
and wire-rendering functions: it strictly dominates every strict
subschema. -/
def zsize : ZodType → Nat
  | .zstring => 1
  | .znumber => 1
  | .zboolean => 1
  | .zany => 1
  | .zliteral _ => 1
  | .zarray t => zsize t + 1
  | .zobject props => zsizeFields props + 1
  | .zrecord => 1
  | .zoptional t => zsize t + 1
  | .zdefault t _ => zsize t + 1
  | .zunion ts => zsizeList ts + 1

/-- Summed sizes of a shape's subschemas. -/
def zsizeFields : List (String × ZodType) → Nat
  | [] => 0
  | (_, t) :: rest => zsize t + zsizeFields rest

/-- Summed sizes of a union's options. -/
def zsizeList : List ZodType → Nat
  | [] => 0
  | t :: ts => zsize t + zsizeList ts

end

/-- Element-wise parse of an array's entries by a given element parser. -/
def zlistGo (g : Value → Except String Value) : List Value → Except String (List Value)
  | [] => .ok []
  | x :: xs =>
      match g x with
      | .error e => .error e
      | .ok w =>
          match zlistGo g xs with
          | .error e => .error e
          | .ok ws => .ok (w :: ws)

/-- Field-wise parse of an object against a shape by a given parser: each
declared key is parsed (missing keys as `undefined`), unknown keys are
stripped. -/
def zfieldsGo (g : ZodType → Value → Except String Value) :
    List (String × ZodType) → List (String × Value) →
    Except String (List (String × Value))
  | [], _ => .ok []
  | (k, t) :: rest, fields =>
      match g t ((jget fields k).getD .vundefined) with
      | .error e => .error e
      | .ok w =>
          match zfieldsGo g rest fields with
          | .error e => .error e
          | .ok ws => .ok ((k, w) :: ws)

/-- Union parse by a given parser: options are tried in order, first
success wins. -/
def zunionGo (g : ZodType → Value → Except String Value) :
    List ZodType → Value → Except String Value
  | [], _ => .error "Invalid input"
  | t :: ts, v =>
      match g t v with
      | .ok w => .ok w
      | .error _ => zunionGo g ts v

/-- `schema.parse(value)` of the Zod library (strip mode: unknown object
keys are dropped; a missing key is parsed as `undefined`), written by
structural recursion on a fuel so that it is kernel-computable.  The
recursion descends only into strict subschemas, so any fuel of at least
`zsize schema` — as supplied by the `zparse` wrapper below — never
reaches the zero-fuel branch.  `Except.error` models a thrown `ZodError`,
carrying its message. -/
def zparseF : Nat → ZodType → Value → Except String Value
  | 0, _, _ => .error "Invalid input"
  | fuel + 1, s, v =>
      match s with
      | .zstring =>
          match v with
          | .vstr t => .ok (.vstr t)
          | _ => .error "Expected string"
      | .znumber =>
          match v with
          | .vnum n => .ok (.vnum n)
          | _ => .error "Expected number"
      | .zboolean =>
          match v with
          | .vbool b => .ok (.vbool b)
          | _ => .error "Expected boolean"
      | .zany => .ok v
      | .zliteral l =>
          match v with
          | .vstr t => if t = l then .ok (.vstr t) else .error "Invalid literal value"
          | _ => .error "Invalid literal value"
      | .zarray t =>
          match v with
          | .varr xs => (zlistGo (zparseF fuel t) xs).map .varr
          | _ => .error "Expected array"
      | .zobject props =>
          match v with
          | .vobj fields => (zfieldsGo (zparseF fuel) props fields).map .vobj
          | _ => .error "Expected object"
      | .zrecord =>
          match v with
          | .vobj fields => .ok (.vobj fields)
          | _ => .error "Expected object"
      | .zoptional t =>
          match v with
          | .vundefined => .ok .vundefined
          | w => zparseF fuel t w
      | .zdefault t d =>
          match v with
          | .vundefined => zparseF fuel t d
          | w => zparseF fuel t w
      | .zunion ts => zunionGo (zparseF fuel) ts v

/-- `schema.parse(value)`: the fuel `zsize schema` strictly dominates
the subschema recursion depth. -/
def zparse (s : ZodType) (v : Value) : Except String Value :=
  zparseF (zsize s) s v

/-! ## Wire schema compilation (`zodToJsonSchema` + the source's checks) -/

/-- The JSON-Schema value produced by `zodToJsonSchema(schema,
{$refStrategy:"none", ...})`, without the top-level `$schema` marker
(added by `zodToJsonSchemaTop`): objects render with `type:"object"` and
a `properties` map, unions render as `anyOf` with neither, records render
with `type:"object"` but no `properties`.  As with `zparseF`, recursion
descends only into strict subschemas, so fuel `zsize schema` (supplied
by the `zodToJsonSchemaV` wrapper) never reaches the zero-fuel branch. -/
def zodToJsonSchemaF : Nat → ZodType → Value
  | 0, _ => .vobj []
  | fuel + 1, s =>
      match s with
      | .zstring => .vobj [("type", .vstr "string")]
      | .znumber => .vobj [("type", .vstr "number")]
      | .zboolean => .vobj [("type", .vstr "boolean")]
      | .zany => .vobj []
      | .zliteral l => .vobj [("type", .vstr "string"), ("const", .vstr l)]
      | .zarray t => .vobj [("type", .vstr "array"), ("items", zodToJsonSchemaF fuel t)]
      | .zobject props =>
          .vobj [("type", .vstr "object"),
                 ("properties",
                   .vobj (props.map (fun kt => (kt.1, zodToJsonSchemaF fuel kt.2)))),
                 ("additionalProperties", .vbool false)]
      | .zrecord => .vobj [("type", .vstr "object"), ("additionalProperties", .vobj [])]
      | .zoptional t => zodToJsonSchemaF fuel t
      | .zdefault t d => .vobj (jset (spreadToObj (zodToJsonSchemaF fuel t)) "default" d)
      | .zunion ts => .vobj [("anyOf", .varr (ts.map (zodToJsonSchemaF fuel)))]

/-- The wire rendering of a schema. -/
def zodToJsonSchemaV (s : ZodType) : Value :=
  zodToJsonSchemaF (zsize s) s

/-- `zodToJsonSchema` output with its top-level `$schema` marker. -/
def zodToJsonSchemaTop (s : ZodType) : Value :=
  match zodToJsonSchemaV s with
  | .vobj fields =>
      .vobj (("$schema", .vstr "http://json-schema.org/draft-07/schema#") :: fields)
  | v => v

/-- The compiled wire schema after the source's
`if ("$schema" in jsonSchema) delete jsonSchema.$schema`. -/
def compiledWireSchema (s : ZodType) : Value :=
  match zodToJsonSchemaTop s with
  | .vobj fields => .vobj (jdel fields "$schema")
  | v => v

/-- The source's structural check on the compiled wire schema:
it must be an object with a `properties` key and `type === "object"`. -/
def wireSchemaOk (s : ZodType) : Bool :=
  match compiledWireSchema s with
  | .vobj fields =>
      hasKey fields "properties" && hasKey fields "type" &&
        (match jget fields "type" with
         | some (.vstr t) => t = "object"
         | _ => false)
  | _ => false

/-! ## `fillMissingFields` -/

/-- The default synthesized by `fillMissingFields`'s `switch` on
`zodType._def?.typeName`. -/
def fillDefault (tn : String) : Value :=
  match tn with
  | "ZodArray" => .varr []
  | "ZodObject" => .vobj []
  | "ZodString" => .vstr ""
  | "ZodNumber" => .vnum 0
  | "ZodBoolean" => .vbool false
  | _ => .vnull

/-- The `for (const key in properties)` loop of `fillMissingFields`: a
declared key that is absent from the response, or present with value
`undefined`, is set to its kind's default. -/
def fillLoop : List (String × ZodType) → List (String × Value) → List (String × Value)
  | [], full => full
  | (k, ty) :: rest, full =>
      match jget full k with
      | none => fillLoop rest (jset full k (fillDefault (typeName ty)))
      | some .vundefined => fillLoop rest (jset full k (fillDefault (typeName ty)))
      | some _ => fillLoop rest full

/-- `fillMissingFields(schema, aiResponse)`: shallow-copies the response
(`{...aiResponse}`), fills defaults for the declared shape keys (the loop
runs zero times when `schema.shape` is `undefined`, i.e. on non-object
schemas), then returns `schema.parse` of the result.  `Except.error` is
the thrown `ZodError` of a failed validation. -/
def fillMissingFields (schema : ZodType) (aiResponse : Value) : Except String Value :=
  let full := spreadToObj aiResponse
  let filled :=
    match shapeOf schema with
    | none => full
    | some props => fillLoop props full
  zparse schema (.vobj filled)

/-! ## Backend model and `executeModel` -/

/-- Modelled from the spec: the four backend identifiers imported from
`./models.js` (a file not part of this source tree).  The spec only
requires them to be distinct string identifiers: small-context cascade
order Hermes2Pro, MistralSmall3_1, Llama4Scout, Llama3_3; large-context
backends Llama4Scout (A) and MistralSmall3_1 (B). -/
def Hermes2Pro : String := "@hf/nousresearch/hermes-2-pro-mistral-7b"

/-- Modelled from the spec: see `Hermes2Pro`. -/
def MistralSmall3_1 : String := "@cf/mistralai/mistral-small-3.1-24b-instruct"

/-- Modelled from the spec: see `Hermes2Pro`. -/
def Llama4Scout : String := "@cf/meta/llama-4-scout-17b-16e-instruct"

/-- Modelled from the spec: see `Hermes2Pro`. -/
def Llama3_3 : String := "@cf/meta/llama-3.3-70b-instruct-fp8-fast"

/-- The instance field `maxSmallContextChars = 80000`, both the small
context threshold and the chunk size. -/
def maxSmallContextChars : Nat := 80000

/-- Outcome of one `env.AI.run` call: the backend either throws or
returns a value. -/
inductive BackendOutcome where
  | threw : String → BackendOutcome
  | ret : Value → BackendOutcome

/-- The backend binding `env.AI`, abstracted as an oracle from model name
and prompt to an outcome. -/
def Oracle : Type := String → List Char → BackendOutcome

/-- One recorded backend invocation (model name and user prompt). -/
structure ModelCall where
  model : String
  payload : List Char

/-- The user prompt built by `executeModel`, embedding the payload
between explicit delimiters. -/
def buildPrompt (textPayload : List Char) : List Char :=
  ("You are an AI assistant tasked with analyzing the following text and extracting information according to a specific JSON schema.\n--- TEXT START ---\n").toList
    ++ textPayload ++
  ("\n--- TEXT END ---\nYour response MUST be a single, valid JSON object that strictly adheres to the provided JSON schema. Do not include any explanatory text, markdown formatting, or anything else outside the JSON object itself. Respond with the JSON for the text provided above.").toList

/-- The result record returned by every extraction path.  `none` in
`structuredResult` is the JS `null` written by failure paths; `none` in
`error` or `isChunked` means the field is absent from the returned object
(reads as `undefined`). -/
structure ExecResult where
  success : Bool
  modelUsed : String
  structuredResult : Option Value
  error : Option String
  isChunked : Option Bool

/-- The failure message prefix used by `executeModel`'s catch block. -/
def execFailMsg (modelName : String) (e : String) : String :=
  "Model " ++ modelName ++ " failed: " ++ e

/-- The message of the error thrown when the backend payload is
empty or null. -/
def emptyRespMsg (modelName : String) : String :=
  "Model " ++ modelName ++ " returned an empty or invalid response."

/-- The message of the error thrown when the compiled wire schema fails
the structural check. -/
def configErrMsg : String :=
  "Failed to generate a valid JSON schema for the request."

/-- `executeModel(modelName, textPayload, schema, isChunk)`.  The whole
body sits in one `try`: a failed wire-schema check, a backend throw, an
empty/null payload and a failed repair all land in the `catch`, which
returns a `success:false` record (the error formatted from the thrown
error's `errors`/`message`).  The second component is the list of backend
invocations actually performed. -/
def executeModel (ai : Oracle) (modelName : String) (textPayload : List Char)
    (schema : ZodType) (isChunk : Bool) : ExecResult × List ModelCall :=
  if wireSchemaOk schema = false then
    (⟨false, modelName, none, some (execFailMsg modelName configErrMsg), some isChunk⟩, [])
  else
    let call : ModelCall := ⟨modelName, buildPrompt textPayload⟩
    match ai modelName (buildPrompt textPayload) with
    | .threw m =>
        (⟨false, modelName, none, some (execFailMsg modelName m), some isChunk⟩, [call])
    | .ret response =>
        match getProp response "response" with
        | .vundefined =>
            (⟨false, modelName, none,
              some (execFailMsg modelName (emptyRespMsg modelName)), some isChunk⟩, [call])
        | .vnull =>
            (⟨false, modelName, none,
              some (execFailMsg modelName (emptyRespMsg modelName)), some isChunk⟩, [call])
        | resultObject =>
            match fillMissingFields schema resultObject with
            | .ok v => (⟨true, modelName, some v, none, some isChunk⟩, [call])
            | .error e =>
                (⟨false, modelName, none, some (execFailMsg modelName e), some isChunk⟩, [call])

/-! ## Chunk split, merge fold, and `chunkAndMerge` -/

/-- Fuel-indexed splitter.  With fuel at least the text length and a
positive chunk size it computes exactly the source loop
`for (let i = 0; i < len; i += chunkSize) push(substring(i, i + chunkSize))`
(each step consumes at least one character, so `length` fuel suffices). -/
def splitChunksAux : Nat → Nat → List Char → List (List Char)
  | 0, _, _ => []
  | _, _, [] => []
  | fuel + 1, c, cs => cs.take c :: splitChunksAux fuel c (cs.drop c)

/-- The chunk split of `chunkAndMerge` for chunk size `c`. -/
def splitChunks (c : Nat) (cs : List Char) : List (List Char) :=
  splitChunksAux cs.length c cs

/-- One field of the merge fold (the body of
`for (const key in currentResult)`): arrays concatenate onto an existing
array (or a fresh copy), objects shallow-merge over an existing object or
replace anything else, present scalars overwrite, and a null/undefined
value is written only when the key is absent. -/
def mergeKey (acc : List (String × Value)) (key : String) (newValue : Value) :
    List (String × Value) :=
  match newValue with
  | .varr xs =>
      match jget acc key with
      | some (.varr es) => jset acc key (.varr (es ++ xs))
      | _ => jset acc key (.varr xs)
  | .vobj fs =>
      match jget acc key with
      | some (.vobj es) => jset acc key (.vobj (objSpread es fs))
      | _ => jset acc key (.vobj fs)
  | .vnull => if hasKey acc key then acc else jset acc key .vnull
  | .vundefined => if hasKey acc key then acc else jset acc key .vundefined
  | v => jset acc key v

/-- Folds one chunk's structured result into the accumulator, field by
field in enumeration order. -/
def mergeObj (acc : List (String × Value)) (cur : Value) : List (String × Value) :=
  (spreadToObj cur).foldl (fun a kv => mergeKey a kv.1 kv.2) acc

/-- JS string interpolation of `result.error` in the chunk failure
message (`undefined` when the field is absent). -/
def errText (r : ExecResult) : String :=
  r.error.getD "undefined"

/-- The chunk failure message `Chunking failure on chunk i/n: e`
(1-based index `i` of `n` chunks). -/
def chunkFailMsg (i n : Nat) (e : String) : String :=
  "Chunking failure on chunk " ++ toString i ++ "/" ++ toString n ++ ": " ++ e

/-- The `for (let i = 0; ...)` loop over chunks: each chunk is extracted
by `executeModel` and either aborts the whole operation (`Except.error`
carries the returned failure record) or is folded into the accumulator.
`idx` is the loop counter, `fm` the `firstSuccessfulModel` variable, and
the second component the backend invocations performed. -/
def chunkLoop (ai : Oracle) (modelName : String) (schema : ZodType) (total : Nat) :
    List (List Char) → Nat → List (String × Value) → Option String →
    (Except ExecResult (List (String × Value) × Option String)) × List ModelCall
  | [], _, acc, fm => (.ok (acc, fm), [])
  | chunk :: rest, idx, acc, fm =>
      let er := executeModel ai modelName chunk schema true
      if er.1.success = false ∨ truthy (er.1.structuredResult.getD .vnull) = false then
        (.error ⟨false, modelName, none,
          some (chunkFailMsg (idx + 1) total (errText er.1)), some true⟩, er.2)
      else
        let acc' := mergeObj acc (er.1.structuredResult.getD .vnull)
        let fm' := match fm with
          | some m => some m
          | none => some er.1.modelUsed
        let next := chunkLoop ai modelName schema total rest (idx + 1) acc' fm'
        (next.1, er.2 ++ next.2)

/-- `chunkAndMerge(modelName, fullText, schema)`: split into
`maxChars`-sized chunks, extract each in order (fail fast), fold the
results, then run `fillMissingFields` once on the accumulator inside a
`try` whose catch returns the final-validation failure record. -/
def chunkAndMerge (ai : Oracle) (maxChars : Nat) (modelName : String)
    (fullText : List Char) (schema : ZodType) : ExecResult × List ModelCall :=
  let textChunks := splitChunks maxChars fullText
  match chunkLoop ai modelName schema textChunks.length textChunks 0 [] none with
  | (.error r, t) => (r, t)
  | (.ok (acc, fm), t) =>
      match fillMissingFields schema (.vobj acc) with
      | .ok v => (⟨true, fm.getD modelName, some v, none, some true⟩, t)
      | .error e =>
          (⟨false, fm.getD modelName, none,
            some ("Final validation after merging failed: " ++ e), some true⟩, t)

/-! ## `analyzeText` -/

/-- The exhaustion message of the small-context cascade, listing all four
attempted backends and embedding the last attempt's error. -/
def allModelsFailedMsg (lastError : String) : String :=
  "All models (" ++ Hermes2Pro ++ ", " ++ MistralSmall3_1 ++ ", " ++ Llama4Scout ++
    ", " ++ Llama3_3 ++
    ") failed to generate a valid structured response. Last error: " ++ lastError

/-- `analyzeText(schema, textPayload)`: throws on an empty payload
(`Except.error`); above the threshold tries Llama4Scout then
MistralSmall3_1 then escalates to `chunkAndMerge` with Llama4Scout; at or
below it tries Hermes2Pro, MistralSmall3_1, Llama4Scout, Llama3_3 in
order, first success wins, else returns the synthetic exhaustion record
(which sets no `isChunked` field). -/
def analyzeText (ai : Oracle) (maxChars : Nat) (schema : ZodType)
    (textPayload : List Char) : Except String (ExecResult × List ModelCall) :=
  if textPayload = [] then
    .error "Input textPayload cannot be empty for analyzeText."
  else if maxChars < textPayload.length then
    let a1 := executeModel ai Llama4Scout textPayload schema false
    if a1.1.success then .ok a1
    else
      let a2 := executeModel ai MistralSmall3_1 textPayload schema false
      if a2.1.success then .ok (a2.1, a1.2 ++ a2.2)
      else
        let cm := chunkAndMerge ai maxChars Llama4Scout textPayload schema
        .ok (cm.1, a1.2 ++ a2.2 ++ cm.2)
  else
    let a1 := executeModel ai Hermes2Pro textPayload schema false
    if a1.1.success then .ok a1
    else
      let a2 := executeModel ai MistralSmall3_1 textPayload schema false
      if a2.1.success then .ok (a2.1, a1.2 ++ a2.2)
      else
        let a3 := executeModel ai Llama4Scout textPayload schema false
        if a3.1.success then .ok (a3.1, a1.2 ++ a2.2 ++ a3.2)
        else
          let a4 := executeModel ai Llama3_3 textPayload schema false
          if a4.1.success then .ok (a4.1, a1.2 ++ a2.2 ++ a3.2 ++ a4.2)
          else
            .ok (⟨false, Llama3_3, none,
                  some (allModelsFailedMsg (errText a4.1)), none⟩,
                 a1.2 ++ a2.2 ++ a3.2 ++ a4.2)

/-! ## `pollBatchAnalysisStatus` (post-`env.AI.run` processing) -/

/-- Per-item post-processing of a completed batch poll: a successful item
with a truthy result payload is repaired (a repair failure demotes only
that item, embedding the message both in `error` and in a synthetic
`result.response.error`); any other item is normalized to the same failed
shape with its own error or a fixed message. -/
def pollProcessItem (schema : ZodType) (item : Value) : Value :=
  if truthy (getProp item "success") && truthy (getProp (getProp item "result") "response") then
    match fillMissingFields schema (getProp (getProp item "result") "response") with
    | .ok filled =>
        .vobj (jset (spreadToObj item) "result" (.vobj [("response", filled)]))
    | .error e =>
        let msg := "Schema validation failed: " ++ e
        .vobj (jset (jset (jset (spreadToObj item)
          "success" (.vbool false))
          "error" (.vstr msg))
          "result" (.vobj [("response", .vobj [("error", .vstr msg)])]))
  else
    let errorMessage :=
      if truthy (getProp item "error") then getProp item "error"
      else .vstr "AI processing failed or result structure invalid."
    .vobj (jset (jset (jset (spreadToObj item)
      "success" (.vbool false))
      "error" errorMessage)
      "result" (.vobj [("response", .vobj [("error", errorMessage)])]))

/-- Whether the poll envelope's `status` strictly equals `"completed"`. -/
def isCompleted (v : Value) : Bool :=
  match v with
  | .vstr s => s = "completed"
  | _ => false

/-- `pollBatchAnalysisStatus` after the backend returned `pollResp`:
anything not completed passes through unchanged; a completed envelope
must carry an array of responses (else a structural error is thrown),
each processed independently, and is returned with
`status:"completed"` regardless of item outcomes.  (The envelope is an
object in every reachable call; member access on `null` would throw in
JS and is not modelled.) -/
def pollBatch (requestId : String) (pollResp : Value) (schema : ZodType) :
    Except String Value :=
  if isCompleted (getProp pollResp "status") = false then .ok pollResp
  else
    match getProp pollResp "responses" with
    | .varr items =>
        .ok (.vobj (jset (jset (spreadToObj pollResp)
          "responses" (.varr (items.map (pollProcessItem schema))))
          "status" (.vstr "completed")))
    | _ =>
        .error ("Completed batch analysis response for " ++ requestId ++
          " has invalid structure.")

/-! ## The schemas appearing in the spec and in the repository's caller -/

/-- The spec's repair-totality example schema
`{name: string (required), tags: array}`. -/
def nameTagsSchema : ZodType :=
  .zobject [("name", .zstring), ("tags", .zarray .zany)]

/-- The caller's `plannerCommandSchema`: `command` string, `params`
`z.record(z.any()).optional().default({})`, `reasoning` string. -/
def plannerCommandSchema : ZodType :=
  .zobject [("command", .zstring),
            ("params", .zdefault (.zoptional .zrecord) (.vobj [])),
            ("reasoning", .zstring)]

/-- The caller's `clarifyCommandSchema`: `command` the literal
`"CLARIFY"`, `question` string, `reasoning` string. -/
def clarifyCommandSchema : ZodType :=
  .zobject [("command", .zliteral "CLARIFY"),
            ("question", .zstring),
            ("reasoning", .zstring)]

/-- The caller's `aiResponseSchema`, the union passed to `analyzeText`
by `parsePromptWithAI`. -/
def aiResponseSchema : ZodType :=
  .zunion [plannerCommandSchema, clarifyCommandSchema]

/-! ## Concrete backends used to exercise the model on closed inputs -/

/-- A backend that always throws. -/
def failOracle : Oracle := fun _ _ => .threw "boom"

/-- A backend that always returns the envelope
`{response: {name: "Bob"}}`. -/
def okOracle : Oracle := fun _ _ =>
  .ret (.vobj [("response", .vobj [("name", .vstr "Bob")])])

/-- A backend on which only `MistralSmall3_1` (the second small-context
backend) succeeds. -/
def onlySecondOracle : Oracle := fun m _ =>
  if m = MistralSmall3_1 then .ret (.vobj [("response", .vobj [("name", .vstr "x")])])
  else .threw "nope"

/-- A backend that fails exactly on the prompt built from the chunk
`"cd"` and succeeds on every other prompt. -/
def failSecondChunkOracle : Oracle := fun _ p =>
  if p = buildPrompt ('c' :: ['d']) then .threw "bad"
  else .ret (.vobj [("response", .vobj [("name", .vstr "x")])])

/-! ## Helper lemmas about the object model -/

theorem jget_jset_self (fs : List (String × Value)) (k : String) (v : Value) :
    jget (jset fs k v) k = some v := by
  induction fs with
  | nil => simp [jset, jget]
  | cons kv rest ih =>
      by_cases h : kv.1 = k
      · simp [jset, h, jget]
      · simpa [jset, h, jget] using ih

theorem jget_jset_ne (fs : List (String × Value)) (k k' : String) (v : Value)
    (h : k ≠ k') : jget (jset fs k v) k' = jget fs k' := by
  induction fs with
  | nil => simp [jset, jget, h]
  | cons kv rest ih =>
      by_cases hk : kv.1 = k
      · simp [jset, hk, jget, h]
      · by_cases hk' : kv.1 = k'
        · have hne : ¬ (k' = k) := fun hh => h hh.symm
          simp [jset, hk, hne, jget, hk']
        · simpa [jset, hk, jget, hk'] using ih

/-! ## Parsing an object yields an object -/

theorem zunionGo_ok (g : ZodType → Value → Except String Value)
    (ts : List ZodType) (v w : Value)
    (h : zunionGo g ts v = .ok w) : ∃ t ∈ ts, g t v = .ok w := by
  induction ts with
  | nil => simp [zunionGo] at h
  | cons t ts ih =>
      rw [zunionGo] at h
      rcases he : g t v with e | u
      · rw [he] at h
        obtain ⟨t', ht', hp⟩ := ih h
        exact ⟨t', List.mem_cons_of_mem _ ht', hp⟩
      · rw [he] at h
        exact ⟨t, List.mem_cons_self _ _, by rw [he]; exact h⟩

theorem zparseF_vobj_ok : ∀ (fuel : Nat) (s : ZodType)
    (fs : List (String × Value)) (v : Value),
    zparseF fuel s (.vobj fs) = .ok v → ∃ gs, v = .vobj gs := by
  intro fuel
  induction fuel with
  | zero => intro s fs v h; simp [zparseF] at h
  | succ fuel ih =>
      intro s fs v h
      match s with
      | .zstring => simp [zparseF] at h
      | .znumber => simp [zparseF] at h
      | .zboolean => simp [zparseF] at h
      | .zliteral l => simp [zparseF] at h
      | .zarray t => simp [zparseF] at h
      | .zany =>
          simp [zparseF] at h
          exact ⟨fs, h.symm⟩
      | .zobject props =>
          simp only [zparseF] at h
          rcases hp : zfieldsGo (zparseF fuel) props fs with e | ws
          · rw [hp] at h; simp [Except.map] at h
          · rw [hp] at h; simp [Except.map] at h
            exact ⟨ws, h.symm⟩
      | .zrecord =>
          simp [zparseF] at h
          exact ⟨fs, h.symm⟩
      | .zoptional t =>
          simp only [zparseF] at h
          exact ih t fs v h
      | .zdefault t d =>
          simp only [zparseF] at h
          exact ih t fs v h
      | .zunion ts =>
          simp only [zparseF] at h
          obtain ⟨t, ht, hp⟩ := zunionGo_ok _ ts _ v h
          exact ih t fs v hp

theorem zparse_vobj_ok (s : ZodType) (fs : List (String × Value)) (v : Value)
    (h : zparse s (.vobj fs) = .ok v) : ∃ gs, v = .vobj gs :=
  zparseF_vobj_ok (zsize s) s fs v h

/-- A successful `fillMissingFields` always returns an object (it returns
the output of `schema.parse` applied to an object). -/
theorem fillMissingFields_ok_vobj (schema : ZodType) (aiResponse : Value) (v : Value)
    (h : fillMissingFields schema aiResponse = .ok v) : ∃ gs, v = .vobj gs := by
  rw [fillMissingFields] at h
  exact zparse_vobj_ok schema _ v h

/-! ## Basic facts about `executeModel` -/

theorem executeModel_modelUsed (ai : Oracle) (m : String) (p : List Char)
    (s : ZodType) (k : Bool) : (executeModel ai m p s k).1.modelUsed = m := by
  rw [executeModel]
  split
  · rfl
  · split
    · rfl
    · split
      · rfl
      · rfl
      · split <;> rfl

theorem executeModel_isChunked (ai : Oracle) (m : String) (p : List Char)
    (s : ZodType) (k : Bool) : (executeModel ai m p s k).1.isChunked = some k := by
  rw [executeModel]
  split
  · rfl
  · split
    · rfl
    · split
      · rfl
      · rfl
      · split <;> rfl

theorem executeModel_result_iff (ai : Oracle) (m : String) (p : List Char)
    (s : ZodType) (k : Bool) :
    ((executeModel ai m p s k).1.structuredResult).isSome = (executeModel ai m p s k).1.success := by
  rw [executeModel]
  split
  · rfl
  · split
    · rfl
    · split
      · rfl
      · rfl
      · split <;> rfl

theorem executeModel_calls_model (ai : Oracle) (m : String) (p : List Char)
    (s : ZodType) (k : Bool) :
    ∀ mc ∈ (executeModel ai m p s k).2, mc.model = m := by
  rw [executeModel]
  split
  · intro mc hmc; simp at hmc
  · split
    · intro mc hmc; simp at hmc; subst hmc; rfl
    · split
      · intro mc hmc; simp at hmc; subst hmc; rfl
      · intro mc hmc; simp at hmc; subst hmc; rfl
      · split <;> (intro mc hmc; simp at hmc; subst hmc; rfl)

theorem executeModel_structuredResult_vobj (ai : Oracle) (m : String) (p : List Char)
    (s : ZodType) (k : Bool) (v : Value)
    (h : (executeModel ai m p s k).1.structuredResult = some v) :
    ∃ gs, v = .vobj gs := by
  rw [executeModel] at h
  split at h
  · simp at h
  · split at h
    · simp at h
    · split at h
      · simp at h
      · simp at h
      · split at h
        · rename_i heq
          simp at h
          exact fillMissingFields_ok_vobj _ _ _ (h ▸ heq)
        · simp at h

/-- A successful attempt carries an object as its structured result. -/
theorem executeModel_success_vobj (ai : Oracle) (m : String) (p : List Char)
    (s : ZodType) (k : Bool) (h : (executeModel ai m p s k).1.success = true) :
    ∃ gs, (executeModel ai m p s k).1.structuredResult = some (.vobj gs) := by
  have hiff := executeModel_result_iff ai m p s k
  rw [h] at hiff
  rcases ho : (executeModel ai m p s k).1.structuredResult with _ | v
  · rw [ho] at hiff; simp at hiff
  · obtain ⟨gs, hgs⟩ := executeModel_structuredResult_vobj ai m p s k v ho
    exact ⟨gs, by simp [ho, hgs]⟩

/-! ## Chunk split lemmas -/

theorem splitChunksAux_succ_cons (fuel c : Nat) (ch : Char) (cs' : List Char) :
    splitChunksAux (fuel + 1) c (ch :: cs') =
      List.take c (ch :: cs') :: splitChunksAux fuel c (List.drop c (ch :: cs')) := rfl

theorem splitChunksAux_join : ∀ (fuel c : Nat) (cs : List Char), 0 < c →
    cs.length ≤ fuel → (splitChunksAux fuel c cs).flatten = cs := by
  intro fuel
  induction fuel with
  | zero =>
      intro c cs hc hlen
      have : cs = [] := List.length_eq_zero.mp (Nat.le_zero.mp hlen)
      subst this
      simp [splitChunksAux]
  | succ fuel ih =>
      intro c cs hc hlen
      match cs with
      | [] => simp [splitChunksAux]
      | ch :: cs' =>
          have hdrop : (List.drop c (ch :: cs')).length ≤ fuel := by
            simp only [List.length_drop, List.length_cons]
            simp only [List.length_cons] at hlen
            omega
          rw [splitChunksAux_succ_cons, List.flatten_cons, ih c _ hc hdrop]
          exact List.take_append_drop c (ch :: cs')

theorem splitChunksAux_length : ∀ (fuel c : Nat) (cs : List Char), 0 < c →
    cs.length ≤ fuel →
    (splitChunksAux fuel c cs).length = (cs.length + c - 1) / c := by
  intro fuel
  induction fuel with
  | zero =>
      intro c cs hc hlen
      have hnil : cs = [] := List.length_eq_zero.mp (Nat.le_zero.mp hlen)
      subst hnil
      have h0 : ([] : List Char).length + c - 1 = c - 1 := by simp
      rw [h0, Nat.div_eq_of_lt (by omega)]
      simp [splitChunksAux]
  | succ fuel ih =>
      intro c cs hc hlen
      match cs with
      | [] =>
          have h0 : ([] : List Char).length + c - 1 = c - 1 := by simp
          rw [h0, Nat.div_eq_of_lt (by omega)]
          simp [splitChunksAux]
      | ch :: cs' =>
          have hdroplen : (List.drop c (ch :: cs')).length = cs'.length + 1 - c := by
            simp [List.length_drop]
          have hdrop : (List.drop c (ch :: cs')).length ≤ fuel := by
            rw [hdroplen]
            simp only [List.length_cons] at hlen
            omega
          rw [splitChunksAux_succ_cons, List.length_cons, ih c _ hc hdrop, hdroplen,
            List.length_cons]
          by_cases hcase : cs'.length + 1 ≤ c
          · have h1 : cs'.length + 1 - c + c - 1 = c - 1 := by omega
            rw [h1]
            have h2 : (c - 1) / c = 0 := Nat.div_eq_of_lt (by omega)
            rw [h2]
            have h3 : (cs'.length + 1 + c - 1) / c = 1 := by
              apply Nat.div_eq_of_lt_le
              · omega
              · have htwo : (1 + 1) * c = c + c := by ring
                omega
            rw [h3]
          · have h4 : cs'.length + 1 - c + c - 1 = cs'.length := by omega
            have h5 : cs'.length + 1 + c - 1 = cs'.length + c := by omega
            rw [h4, h5, Nat.add_div_right _ hc]

theorem splitChunksAux_get : ∀ (fuel c : Nat) (cs : List Char), 0 < c →
    cs.length ≤ fuel → ∀ i, i < (splitChunksAux fuel c cs).length →
    (splitChunksAux fuel c cs)[i]? = some ((cs.drop (i * c)).take c) := by
  intro fuel
  induction fuel with
  | zero =>
      intro c cs hc hlen
      have : cs = [] := List.length_eq_zero.mp (Nat.le_zero.mp hlen)
      subst this
      simp [splitChunksAux]
  | succ fuel ih =>
      intro c cs hc hlen i hi
      match cs with
      | [] => simp [splitChunksAux] at hi
      | ch :: cs' =>
          have hdrop : (List.drop c (ch :: cs')).length ≤ fuel := by
            simp only [List.length_drop, List.length_cons]
            simp only [List.length_cons] at hlen
            omega
          match i with
          | 0 => simp [splitChunksAux]
          | i + 1 =>
              rw [splitChunksAux_succ_cons, List.length_cons] at hi
              have hi' : i < (splitChunksAux fuel c (List.drop c (ch :: cs'))).length := by
                omega
              have hm : (i + 1) * c = c + i * c := by
                rw [Nat.succ_mul]; omega
              rw [splitChunksAux_succ_cons, List.getElem?_cons_succ,
                ih c _ hc hdrop i hi', List.drop_drop, hm]

theorem splitChunksAux_mid_len : ∀ (fuel c : Nat) (cs : List Char), 0 < c →
    cs.length ≤ fuel → ∀ i, i + 1 < (splitChunksAux fuel c cs).length →
    ((splitChunksAux fuel c cs)[i]?).map List.length = some c := by
  intro fuel
  induction fuel with
  | zero =>
      intro c cs hc hlen
      have : cs = [] := List.length_eq_zero.mp (Nat.le_zero.mp hlen)
      subst this
      simp [splitChunksAux]
  | succ fuel ih =>
      intro c cs hc hlen i hi
      match cs with
      | [] => simp [splitChunksAux] at hi
      | ch :: cs' =>
          have hdrop : (List.drop c (ch :: cs')).length ≤ fuel := by
            simp only [List.length_drop, List.length_cons]
            simp only [List.length_cons] at hlen
            omega
          match i with
          | 0 =>
              rw [splitChunksAux_succ_cons, List.length_cons] at hi
              have hne : 0 < (splitChunksAux fuel c (List.drop c (ch :: cs'))).length := by
                omega
              have hcs : c < cs'.length + 1 := by
                by_contra hle
                have hz : (List.drop c (ch :: cs')) = [] :=
                  List.drop_eq_nil_of_le (by simp only [List.length_cons]; omega)
                rw [hz] at hne
                cases fuel <;> simp [splitChunksAux] at hne
              rw [splitChunksAux_succ_cons, List.getElem?_cons_zero]
              show some (List.take c (ch :: cs')).length = some c
              congr 1
              simp only [List.length_take, List.length_cons]
              omega
          | i + 1 =>
              rw [splitChunksAux_succ_cons, List.length_cons] at hi
              have hi' : i + 1 < (splitChunksAux fuel c (List.drop c (ch :: cs'))).length := by
                omega
              rw [splitChunksAux_succ_cons, List.getElem?_cons_succ]
              exact ih c _ hc hdrop i hi'

theorem splitChunksAux_last_len : ∀ (fuel c : Nat) (cs : List Char), 0 < c →
    cs.length ≤ fuel → splitChunksAux fuel c cs ≠ [] →
    ((splitChunksAux fuel c cs).getLast?).map List.length =
      some (cs.length - ((splitChunksAux fuel c cs).length - 1) * c) := by
  intro fuel
  induction fuel with
  | zero =>
      intro c cs hc hlen hne
      have : cs = [] := List.length_eq_zero.mp (Nat.le_zero.mp hlen)
      subst this
      simp [splitChunksAux] at hne
  | succ fuel ih =>
      intro c cs hc hlen hne
      match cs with
      | [] => simp [splitChunksAux] at hne
      | ch :: cs' =>
          have hdrop : (List.drop c (ch :: cs')).length ≤ fuel := by
            simp only [List.length_drop, List.length_cons]
            simp only [List.length_cons] at hlen
            omega
          rcases hrest : splitChunksAux fuel c (List.drop c (ch :: cs')) with _ | ⟨r, rs⟩
          · have hle : cs'.length + 1 ≤ c := by
              by_contra hlt
              have hd : (List.drop c (ch :: cs')) ≠ [] := by
                intro hdnil
                have hh := List.length_drop c (ch :: cs')
                rw [hdnil] at hh
                simp only [List.length_nil, List.length_cons] at hh
                omega
              rcases hdd : (List.drop c (ch :: cs')) with _ | ⟨d, ds⟩
              · exact hd hdd
              · rw [hdd] at hrest
                cases fuel with
                | zero =>
                    have hzz : (d :: ds).length ≤ 0 := hdd ▸ hdrop
                    simp at hzz
                | succ fuel => simp [splitChunksAux] at hrest
            rw [splitChunksAux_succ_cons, hrest]
            show some (List.take c (ch :: cs')).length =
              some ((ch :: cs').length - (1 - 1) * c)
            congr 1
            simp only [List.length_take, List.length_cons]
            omega
          · have hcs : c < cs'.length + 1 := by
              by_contra hle
              have hz : (List.drop c (ch :: cs')) = [] :=
                List.drop_eq_nil_of_le (by simp only [List.length_cons]; omega)
              rw [hz] at hrest
              cases fuel <;> simp [splitChunksAux] at hrest
            have ihres := ih c (List.drop c (ch :: cs')) hc hdrop (by rw [hrest]; simp)
            have hlen2 : (splitChunksAux fuel c (List.drop c (ch :: cs'))).length =
                rs.length + 1 := by
              rw [hrest]; simp
            rw [splitChunksAux_succ_cons, hrest, List.getLast?_cons_cons, ← hrest, ihres]
            congr 1
            simp only [List.length_cons, hlen2, List.length_drop]
            have e1 : rs.length + 1 + 1 - 1 = rs.length + 1 := by omega
            have e2 : rs.length + 1 - 1 = rs.length := by omega
            rw [e1, e2, Nat.succ_mul]
            omega

/-! ## Chunk loop lemmas -/

theorem chunkLoop_ok (ai : Oracle) (model : String) (schema : ZodType) (total : Nat) :
    ∀ (chs : List (List Char)) (idx : Nat) (acc : List (String × Value))
      (fm : Option String),
      (∀ ch ∈ chs, (executeModel ai model ch schema true).1.success = true) →
      ∃ fm', chunkLoop ai model schema total chs idx acc fm =
        (.ok (chs.foldl (fun a ch =>
            mergeObj a ((executeModel ai model ch schema true).1.structuredResult.getD .vnull)) acc, fm'),
         (chs.map (fun ch => (executeModel ai model ch schema true).2)).flatten) := by
  intro chs
  induction chs with
  | nil => intro idx acc fm _; exact ⟨fm, by simp [chunkLoop]⟩
  | cons ch rest ih =>
      intro idx acc fm hall
      have hch : (executeModel ai model ch schema true).1.success = true :=
        hall ch (List.mem_cons_self _ _)
      obtain ⟨gs, hgs⟩ := executeModel_success_vobj ai model ch schema true hch
      have hguard : ¬ ((executeModel ai model ch schema true).1.success = false ∨
          truthy ((executeModel ai model ch schema true).1.structuredResult.getD .vnull) = false) := by
        rw [hch, hgs]
        simp [truthy]
      obtain ⟨fm', hrec⟩ := ih (idx + 1)
        (mergeObj acc ((executeModel ai model ch schema true).1.structuredResult.getD .vnull))
        (match fm with
         | some m => some m
         | none => some (executeModel ai model ch schema true).1.modelUsed)
        (fun ch' hch' => hall ch' (List.mem_cons_of_mem _ hch'))
      refine ⟨fm', ?_⟩
      simp only [chunkLoop, if_neg hguard, hrec]
      simp

theorem chunkLoop_fail (ai : Oracle) (model : String) (schema : ZodType) (total : Nat) :
    ∀ (pre : List (List Char)) (bad : List Char) (rest : List (List Char))
      (idx : Nat) (acc : List (String × Value)) (fm : Option String),
      (∀ ch ∈ pre, (executeModel ai model ch schema true).1.success = true) →
      (executeModel ai model bad schema true).1.success = false →
      chunkLoop ai model schema total (pre ++ bad :: rest) idx acc fm =
        (.error ⟨false, model, none,
          some (chunkFailMsg (idx + pre.length + 1) total
            (errText (executeModel ai model bad schema true).1)), some true⟩,
         (pre.map (fun ch => (executeModel ai model ch schema true).2)).flatten
           ++ (executeModel ai model bad schema true).2) := by
  intro pre
  induction pre with
  | nil =>
      intro bad rest idx acc fm _ hbad
      simp only [List.nil_append, chunkLoop, if_pos (Or.inl hbad)]
      simp
  | cons ch pre ih =>
      intro bad rest idx acc fm hall hbad
      have hch : (executeModel ai model ch schema true).1.success = true :=
        hall ch (List.mem_cons_self _ _)
      obtain ⟨gs, hgs⟩ := executeModel_success_vobj ai model ch schema true hch
      have hguard : ¬ ((executeModel ai model ch schema true).1.success = false ∨
          truthy ((executeModel ai model ch schema true).1.structuredResult.getD .vnull) = false) := by
        rw [hch, hgs]
        simp [truthy]
      have hrec := ih bad rest (idx + 1)
        (mergeObj acc ((executeModel ai model ch schema true).1.structuredResult.getD .vnull))
        (match fm with
         | some m => some m
         | none => some (executeModel ai model ch schema true).1.modelUsed)
        (fun ch' hch' => hall ch' (List.mem_cons_of_mem _ hch')) hbad
      have hidx : idx + 1 + pre.length + 1 = idx + (pre.length + 1) + 1 := by omega
      simp only [List.cons_append, chunkLoop, List.append_eq, if_neg hguard, hrec, hidx,
        List.map_cons, List.flatten_cons, List.length_cons, List.append_assoc]

/-! ## Claim theorems -/

/-- C6: for every text of length `L` and chunk size `C > 0`, the chunk
split of `chunkAndMerge` produces exactly `ceil(L/C)` contiguous,
non-overlapping, ordered slices (slice `i` is the window of the original
text starting at offset `i*C`), each of exactly `C` characters except the
final slice which holds the remainder, and the concatenation of the
slices in order equals the original text exactly. -/
theorem splitChunks_reconstruction (c : Nat) (hc : 0 < c) (cs : List Char) :
    (splitChunks c cs).flatten = cs ∧
    (splitChunks c cs).length = (cs.length + c - 1) / c ∧
    (∀ i, i < (splitChunks c cs).length →
      (splitChunks c cs)[i]? = some ((cs.drop (i * c)).take c)) ∧
    (∀ i, i + 1 < (splitChunks c cs).length →
      ((splitChunks c cs)[i]?).map List.length = some c) ∧
    (splitChunks c cs ≠ [] →
      ((splitChunks c cs).getLast?).map List.length =
        some (cs.length - ((splitChunks c cs).length - 1) * c)) :=
  ⟨splitChunksAux_join _ _ _ hc le_rfl,
   splitChunksAux_length _ _ _ hc le_rfl,
   fun i hi => splitChunksAux_get _ _ _ hc le_rfl i hi,
   fun i hi => splitChunksAux_mid_len _ _ _ hc le_rfl i hi,
   fun hne => splitChunksAux_last_len _ _ _ hc le_rfl hne⟩

/-- Witness for C6 at chunk size 3 and the eight-character text
`"abcdefgh"` (three chunks: two full, remainder 2). -/
theorem splitChunks_reconstruction_witness :
    0 < 3 ∧
    ((splitChunks 3 "abcdefgh".toList).flatten = "abcdefgh".toList ∧
     (splitChunks 3 "abcdefgh".toList).length = ("abcdefgh".toList.length + 3 - 1) / 3 ∧
     (∀ i, i < (splitChunks 3 "abcdefgh".toList).length →
       (splitChunks 3 "abcdefgh".toList)[i]? =
         some (("abcdefgh".toList.drop (i * 3)).take 3)) ∧
     (∀ i, i + 1 < (splitChunks 3 "abcdefgh".toList).length →
       ((splitChunks 3 "abcdefgh".toList)[i]?).map List.length = some 3) ∧
     (splitChunks 3 "abcdefgh".toList ≠ [] →
       ((splitChunks 3 "abcdefgh".toList).getLast?).map List.length =
         some ("abcdefgh".toList.length -
           ((splitChunks 3 "abcdefgh".toList).length - 1) * 3))) :=
  ⟨by decide, splitChunks_reconstruction 3 (by decide) "abcdefgh".toList⟩

/-- C3: in `chunkAndMerge`, chunks are extracted strictly one at a time
in order, and the first chunk whose extraction returns `success:false`
aborts the whole operation: the returned record has `success:false`,
`structuredResult` null and an error naming the 1-based failed chunk
index out of the total, embedding the underlying error; the backend is
invoked only for the preceding chunks and the failed one, never for the
remaining chunks, and no partially merged output is returned as a
success. -/
theorem chunkAndMerge_fail_fast (ai : Oracle) (maxChars : Nat) (model : String)
    (schema : ZodType) (fullText : List Char) (pre : List (List Char)) (bad : List Char)
    (rest : List (List Char))
    (hsplit : splitChunks maxChars fullText = pre ++ bad :: rest)
    (hpre : ∀ ch ∈ pre, (executeModel ai model ch schema true).1.success = true)
    (hbad : (executeModel ai model bad schema true).1.success = false) :
    chunkAndMerge ai maxChars model fullText schema =
      (⟨false, model, none,
        some (chunkFailMsg (pre.length + 1) (pre ++ bad :: rest).length
          (errText (executeModel ai model bad schema true).1)), some true⟩,
       (pre.map (fun ch => (executeModel ai model ch schema true).2)).flatten
         ++ (executeModel ai model bad schema true).2) := by
  have hloop := chunkLoop_fail ai model schema (pre ++ bad :: rest).length
    pre bad rest 0 [] none hpre hbad
  rw [chunkAndMerge, hsplit]
  simp only [hloop, Nat.zero_add]

set_option maxRecDepth 8000 in
/-- Witness for C3: with chunk size 2 and the six-character text
`"abcdef"` (three chunks), a backend failing exactly on the second chunk
aborts after two invocations and reports chunk 2 of 3. -/
theorem chunkAndMerge_fail_fast_witness :
    chunkAndMerge failSecondChunkOracle 2 "m" ('a' :: "bcdef".toList) nameTagsSchema =
      (⟨false, "m", none,
        some (chunkFailMsg (1 + 1)
          (([('a', 'b')].map (fun p => [p.1, p.2]) ++ ['c' :: ['d']] ++ [['e', 'f']]).length)
          (errText (executeModel failSecondChunkOracle "m" ('c' :: ['d'])
            nameTagsSchema true).1)), some true⟩,
       ([['a', 'b']].map (fun ch =>
         (executeModel failSecondChunkOracle "m" ch nameTagsSchema true).2)).flatten
         ++ (executeModel failSecondChunkOracle "m" ('c' :: ['d']) nameTagsSchema true).2) := by
  have happ := chunkAndMerge_fail_fast failSecondChunkOracle 2 "m" nameTagsSchema
    ('a' :: "bcdef".toList) [['a', 'b']] ('c' :: ['d']) [['e', 'f']]
    (by decide)
    (by
      intro ch hch
      simp only [List.mem_singleton] at hch
      subst hch
      rfl)
    (by rfl)
  simpa using happ

/-- C4: the merge fold processes chunk results strictly in chunk order
into an accumulator keyed by field name (last conjunct: the loop
accumulates by a left fold over the chunks in order), applying per field:
an array concatenates onto the existing array or an empty one; a
non-array object shallow-merges over an existing object and replaces
anything else; a present scalar overwrites unconditionally; a
null/undefined value leaves a present key untouched; and a
null/undefined value for an absent key sets the key to that value. -/
theorem chunk_merge_fold_rules :
    (∀ acc key xs, mergeKey acc key (.varr xs) =
      jset acc key (.varr ((match jget acc key with
        | some (.varr es) => es
        | _ => ([] : List Value)) ++ xs))) ∧
    (∀ acc key fs es, jget acc key = some (.vobj es) →
      mergeKey acc key (.vobj fs) = jset acc key (.vobj (objSpread es fs))) ∧
    (∀ acc key fs, (∀ es, jget acc key ≠ some (.vobj es)) →
      mergeKey acc key (.vobj fs) = jset acc key (.vobj fs)) ∧
    (∀ acc key v, v ≠ .vnull → v ≠ .vundefined → (∀ xs, v ≠ .varr xs) →
      (∀ fs, v ≠ .vobj fs) → mergeKey acc key v = jset acc key v) ∧
    (∀ acc key v, (v = .vnull ∨ v = .vundefined) → hasKey acc key = true →
      mergeKey acc key v = acc) ∧
    (∀ acc key v, (v = .vnull ∨ v = .vundefined) → hasKey acc key = false →
      mergeKey acc key v = jset acc key v) ∧
    (∀ ai model schema total chs idx acc fm,
      (∀ ch ∈ chs, (executeModel ai model ch schema true).1.success = true) →
      ∃ fm', (chunkLoop ai model schema total chs idx acc fm).1 =
        .ok (chs.foldl (fun a ch => mergeObj a
          ((executeModel ai model ch schema true).1.structuredResult.getD .vnull)) acc,
          fm')) := by
  refine ⟨?_, ?_, ?_, ?_, ?_, ?_, ?_⟩
  · intro acc key xs
    rcases h : jget acc key with _ | v
    · simp [mergeKey, h]
    · cases v <;> simp [mergeKey, h]
  · intro acc key fs es h
    simp [mergeKey, h]
  · intro acc key fs h
    rcases hj : jget acc key with _ | v
    · simp [mergeKey, hj]
    · cases v with
      | vobj es => exact absurd (hj.trans rfl) (h es)
      | vnull => simp [mergeKey, hj]
      | vundefined => simp [mergeKey, hj]
      | vbool b => simp [mergeKey, hj]
      | vnum n => simp [mergeKey, hj]
      | vstr s => simp [mergeKey, hj]
      | varr xs => simp [mergeKey, hj]
  · intro acc key v hnull hundef harr hobj
    cases v with
    | vnull => exact absurd rfl hnull
    | vundefined => exact absurd rfl hundef
    | varr xs => exact absurd rfl (harr xs)
    | vobj fs => exact absurd rfl (hobj fs)
    | vbool b => simp [mergeKey]
    | vnum n => simp [mergeKey]
    | vstr s => simp [mergeKey]
  · intro acc key v hv hk
    rcases hv with h | h <;> subst h <;> simp [mergeKey, hk]
  · intro acc key v hv hk
    rcases hv with h | h <;> subst h <;> simp [mergeKey, hk]
  · intro ai model schema total chs idx acc fm hall
    obtain ⟨fm', h⟩ := chunkLoop_ok ai model schema total chs idx acc fm hall
    exact ⟨fm', by rw [h]⟩

/-- Witness for C4: the object rule shallow-merges a new object over the
existing accumulated object at the same key. -/
theorem chunk_merge_fold_rules_witness :
    mergeKey [("t", Value.vobj [("a", Value.vnum 1)])] "t" (.vobj [("b", Value.vnum 2)]) =
      jset [("t", Value.vobj [("a", Value.vnum 1)])] "t"
        (.vobj (objSpread [("a", Value.vnum 1)] [("b", Value.vnum 2)])) :=
  chunk_merge_fold_rules.2.1 [("t", Value.vobj [("a", Value.vnum 1)])] "t"
    [("b", Value.vnum 2)] [("a", Value.vnum 1)] (by simp [jget])

/-! ## `fillMissingFields` loop lemmas -/

theorem fillLoop_not_mem : ∀ (props : List (String × ZodType))
    (full : List (String × Value)) (key : String),
    key ∉ props.map Prod.fst →
    jget (fillLoop props full) key = jget full key := by
  intro props
  induction props with
  | nil => intro full key _; rfl
  | cons kt rest ih =>
      intro full key h
      simp only [List.map_cons, List.mem_cons] at h
      push_neg at h
      obtain ⟨hk, hrest⟩ := h
      obtain ⟨k, t⟩ := kt
      simp only at hk
      rcases hj : jget full k with _ | v
      · simp only [fillLoop, hj]
        rw [ih _ key hrest, jget_jset_ne _ _ _ _ (fun hh => hk hh.symm)]
      · cases v with
        | vundefined =>
            simp only [fillLoop, hj]
            rw [ih _ key hrest, jget_jset_ne _ _ _ _ (fun hh => hk hh.symm)]
        | vnull => simp only [fillLoop, hj]; exact ih _ key hrest
        | vbool b => simp only [fillLoop, hj]; exact ih _ key hrest
        | vnum n => simp only [fillLoop, hj]; exact ih _ key hrest
        | vstr s => simp only [fillLoop, hj]; exact ih _ key hrest
        | varr xs => simp only [fillLoop, hj]; exact ih _ key hrest
        | vobj fs => simp only [fillLoop, hj]; exact ih _ key hrest

theorem fillLoop_present : ∀ (props : List (String × ZodType))
    (full : List (String × Value)) (key : String) (v : Value),
    jget full key = some v → v ≠ .vundefined →
    jget (fillLoop props full) key = some v := by
  intro props
  induction props with
  | nil => intro full key v h _; exact h
  | cons kt rest ih =>
      intro full key v h hv
      obtain ⟨k, t⟩ := kt
      by_cases hk : k = key
      · subst hk
        cases v with
        | vundefined => exact absurd rfl hv
        | vnull => simp only [fillLoop, h]; exact ih _ _ _ h hv
        | vbool b => simp only [fillLoop, h]; exact ih _ _ _ h hv
        | vnum n => simp only [fillLoop, h]; exact ih _ _ _ h hv
        | vstr s => simp only [fillLoop, h]; exact ih _ _ _ h hv
        | varr xs => simp only [fillLoop, h]; exact ih _ _ _ h hv
        | vobj fs => simp only [fillLoop, h]; exact ih _ _ _ h hv
      · have hset : jget (jset full k (fillDefault (typeName t))) key = some v := by
          rw [jget_jset_ne _ _ _ _ hk]; exact h
        rcases hj : jget full k with _ | w
        · simp only [fillLoop, hj]; exact ih _ _ _ hset hv
        · cases w with
          | vundefined => simp only [fillLoop, hj]; exact ih _ _ _ hset hv
          | vnull => simp only [fillLoop, hj]; exact ih _ _ _ h hv
          | vbool b => simp only [fillLoop, hj]; exact ih _ _ _ h hv
          | vnum n => simp only [fillLoop, hj]; exact ih _ _ _ h hv
          | vstr s => simp only [fillLoop, hj]; exact ih _ _ _ h hv
          | varr xs => simp only [fillLoop, hj]; exact ih _ _ _ h hv
          | vobj fs => simp only [fillLoop, hj]; exact ih _ _ _ h hv

theorem fillLoop_default : ∀ (props : List (String × ZodType))
    (full : List (String × Value)) (key : String) (ty : ZodType),
    (props.map Prod.fst).Nodup → (key, ty) ∈ props →
    (jget full key = none ∨ jget full key = some .vundefined) →
    jget (fillLoop props full) key = some (fillDefault (typeName ty)) := by
  intro props
  induction props with
  | nil => intro full key ty _ hmem; simp at hmem
  | cons kt rest ih =>
      intro full key ty hnd hmem h
      obtain ⟨k, t⟩ := kt
      simp only [List.map_cons, List.nodup_cons] at hnd
      obtain ⟨hknotin, hndrest⟩ := hnd
      rcases List.mem_cons.mp hmem with heq | hmemrest
      · injection heq with hk ht
        subst hk; subst ht
        have hnotin : key ∉ rest.map Prod.fst := hknotin
        rcases h with hj | hj
        · simp only [fillLoop, hj]
          rw [fillLoop_not_mem rest _ key hnotin, jget_jset_self]
        · simp only [fillLoop, hj]
          rw [fillLoop_not_mem rest _ key hnotin, jget_jset_self]
      · have hkne : k ≠ key := by
          intro hk
          subst hk
          exact hknotin (List.mem_map.mpr ⟨(k, ty), hmemrest, rfl⟩)
        have hpres : jget (jset full k (fillDefault (typeName t))) key = jget full key :=
          jget_jset_ne _ _ _ _ hkne
        rcases hj : jget full k with _ | w
        · simp only [fillLoop, hj]
          exact ih _ key ty hndrest hmemrest (by rw [hpres]; exact h)
        · cases w with
          | vundefined =>
              simp only [fillLoop, hj]
              exact ih _ key ty hndrest hmemrest (by rw [hpres]; exact h)
          | vnull => simp only [fillLoop, hj]; exact ih _ key ty hndrest hmemrest h
          | vbool b => simp only [fillLoop, hj]; exact ih _ key ty hndrest hmemrest h
          | vnum n => simp only [fillLoop, hj]; exact ih _ key ty hndrest hmemrest h
          | vstr s => simp only [fillLoop, hj]; exact ih _ key ty hndrest hmemrest h
          | varr xs => simp only [fillLoop, hj]; exact ih _ key ty hndrest hmemrest h
          | vobj fs => simp only [fillLoop, hj]; exact ih _ key ty hndrest hmemrest h

/-- The synthesized default per declared kind, phrased on the schema
constructor rather than the type-name tag. -/
theorem fillDefault_typeName (ty : ZodType) :
    fillDefault (typeName ty) = (match ty with
      | .zarray _ => Value.varr []
      | .zobject _ => Value.vobj []
      | .zstring => Value.vstr ""
      | .znumber => Value.vnum 0
      | .zboolean => Value.vbool false
      | _ => Value.vnull) := by
  cases ty <;> rfl

/-- C1: `fillMissingFields` synthesizes a default for every field
declared on the schema that is absent from the candidate or whose value
is `undefined`, by declared kind (array → `[]`, object → `{}`, string →
`""`, boolean → `false`, number → `0`, anything else → `null`),
preserves every present non-`undefined` field, then runs full schema
validation on the synthesized object, so the call returns exactly that
validation's outcome (the parsed value, or the validation error); in
particular for the schema `{name: string, tags: array}` and input `{}`
it yields `{name: "", tags: []}`, which validates. -/
theorem fillMissingFields_synthesizes_defaults :
    (∀ (props : List (String × ZodType)) (full : List (String × Value))
       (key : String) (ty : ZodType),
      (props.map Prod.fst).Nodup → (key, ty) ∈ props →
      (jget full key = none ∨ jget full key = some .vundefined) →
      jget (fillLoop props full) key = some (match ty with
        | .zarray _ => Value.varr []
        | .zobject _ => Value.vobj []
        | .zstring => Value.vstr ""
        | .znumber => Value.vnum 0
        | .zboolean => Value.vbool false
        | _ => Value.vnull)) ∧
    (∀ (props : List (String × ZodType)) (full : List (String × Value))
       (key : String) (v : Value),
      jget full key = some v → v ≠ .vundefined →
      jget (fillLoop props full) key = some v) ∧
    (∀ (props : List (String × ZodType)) (cand : Value),
      fillMissingFields (.zobject props) cand =
        zparse (.zobject props) (.vobj (fillLoop props (spreadToObj cand)))) ∧
    (fillMissingFields nameTagsSchema (.vobj []) =
      .ok (.vobj [("name", .vstr ""), ("tags", .varr [])])) ∧
    (zparse nameTagsSchema (.vobj [("name", .vstr ""), ("tags", .varr [])]) =
      .ok (.vobj [("name", .vstr ""), ("tags", .varr [])])) := by
  refine ⟨?_, fillLoop_present, fun props cand => rfl, rfl, rfl⟩
  intro props full key ty hnd hmem h
  rw [fillLoop_default props full key ty hnd hmem h, fillDefault_typeName]

/-- Witness for C1: the required string field `name`, absent from the
candidate `{tags: [1]}`, is synthesized as the empty string while the
present field is preserved. -/
theorem fillMissingFields_synthesizes_defaults_witness :
    jget (fillLoop [("name", ZodType.zstring), ("tags", ZodType.zarray .zany)]
      [("tags", Value.varr [Value.vnum 1])]) "name" = some (Value.vstr "") :=
  fillMissingFields_synthesizes_defaults.1
    [("name", ZodType.zstring), ("tags", ZodType.zarray .zany)]
    [("tags", Value.varr [Value.vnum 1])] "name" ZodType.zstring
    (by simp) (by simp) (Or.inl (by simp [jget]))

/-- C10: for every schema whose `shape` property is `undefined` — in
particular the repository caller's `aiResponseSchema` union —
`fillMissingFields` synthesizes no defaults (the per-field loop iterates
over zero keys) and returns exactly the schema's parse of the shallow
copy of the candidate; the shallow copy of an object is its own entries,
and the pure embedding leaves the input candidate untouched by
construction.  The last conjunct evaluates the caller's union on a
concrete clarify-shaped candidate. -/
theorem fillMissingFields_shapeless_schema :
    (∀ (schema : ZodType) (cand : Value), shapeOf schema = none →
      fillMissingFields schema cand = zparse schema (.vobj (spreadToObj cand))) ∧
    (shapeOf aiResponseSchema = none) ∧
    (∀ fs, spreadToObj (.vobj fs) = fs) ∧
    (fillMissingFields aiResponseSchema
        (.vobj [("command", .vstr "CLARIFY"), ("question", .vstr "q"),
                ("reasoning", .vstr "r")]) =
      .ok (.vobj [("command", .vstr "CLARIFY"), ("params", .vobj []),
                  ("reasoning", .vstr "r")])) := by
  refine ⟨?_, rfl, fun fs => rfl, rfl⟩
  intro schema cand h
  simp only [fillMissingFields, h]

/-- Witness for C10: the shapeless-schema rule applied to the caller's
union schema itself. -/
theorem fillMissingFields_shapeless_schema_witness :
    fillMissingFields aiResponseSchema (.vobj [("command", .vstr "MODE_2D")]) =
      zparse aiResponseSchema (.vobj (spreadToObj (.vobj [("command", .vstr "MODE_2D")]))) :=
  fillMissingFields_shapeless_schema.1 aiResponseSchema
    (.vobj [("command", .vstr "MODE_2D")]) rfl

/-- C2 counterexample: the claim says a compiled wire schema lacking
`properties` or with a non-object `type` is thrown to the caller, but
`executeModel`'s catch-all converts it into a returned `success:false`
record — here, on the repository's union schema (whose wire rendering
has `anyOf` and no `type`/`properties`), the call returns the failure
record without throwing and without any backend invocation. -/
theorem executeModel_config_error_returned_not_thrown :
    executeModel failOracle "m" ['x'] aiResponseSchema false =
      ({ success := false, modelUsed := "m", structuredResult := none,
         error := some (execFailMsg "m" configErrMsg), isChunked := some false }, []) := by
  have hwire : wireSchemaOk aiResponseSchema = false := rfl
  simp [executeModel, hwire]

/-- C2 amended: every failure inside `executeModel` — a failed
wire-schema structural check, a backend throw, an empty/null payload,
and a failed repair — is returned as a `success:false` result record,
never thrown; the wire-schema check still happens before any backend
call, so a configuration failure produces an empty invocation list. -/
theorem executeModel_failures_returned (ai : Oracle) (m : String) (p : List Char)
    (schema : ZodType) (k : Bool) :
    (wireSchemaOk schema = false →
      executeModel ai m p schema k =
        ({ success := false, modelUsed := m, structuredResult := none,
           error := some (execFailMsg m configErrMsg), isChunked := some k }, [])) ∧
    (∀ e, wireSchemaOk schema = true → ai m (buildPrompt p) = .threw e →
      executeModel ai m p schema k =
        ({ success := false, modelUsed := m, structuredResult := none,
           error := some (execFailMsg m e), isChunked := some k },
         [⟨m, buildPrompt p⟩])) ∧
    (∀ resp, wireSchemaOk schema = true → ai m (buildPrompt p) = .ret resp →
      (getProp resp "response" = .vundefined ∨ getProp resp "response" = .vnull) →
      executeModel ai m p schema k =
        ({ success := false, modelUsed := m, structuredResult := none,
           error := some (execFailMsg m (emptyRespMsg m)), isChunked := some k },
         [⟨m, buildPrompt p⟩])) ∧
    (∀ resp e, wireSchemaOk schema = true → ai m (buildPrompt p) = .ret resp →
      getProp resp "response" ≠ .vundefined → getProp resp "response" ≠ .vnull →
      fillMissingFields schema (getProp resp "response") = .error e →
      executeModel ai m p schema k =
        ({ success := false, modelUsed := m, structuredResult := none,
           error := some (execFailMsg m e), isChunked := some k },
         [⟨m, buildPrompt p⟩])) := by
  refine ⟨?_, ?_, ?_, ?_⟩
  · intro h
    simp [executeModel, h]
  · intro e hw hai
    simp [executeModel, hw, hai]
  · intro resp hw hai hr
    rcases hr with hr | hr <;> simp [executeModel, hw, hai, hr]
  · intro resp e hw hai hu hn hf
    rcases hro : getProp resp "response" with _ | _ | b | n | s | xs | fs
    · exact absurd hro hn
    · exact absurd hro hu
    · rw [hro] at hf; simp [executeModel, hw, hai, hro, hf]
    · rw [hro] at hf; simp [executeModel, hw, hai, hro, hf]
    · rw [hro] at hf; simp [executeModel, hw, hai, hro, hf]
    · rw [hro] at hf; simp [executeModel, hw, hai, hro, hf]
    · rw [hro] at hf; simp [executeModel, hw, hai, hro, hf]

/-- Witness for C2 (amended): a backend throw on a well-formed object
schema comes back as a returned failure record with one recorded
invocation. -/
theorem executeModel_failures_returned_witness :
    executeModel failOracle "m" ['y'] nameTagsSchema true =
      ({ success := false, modelUsed := "m", structuredResult := none,
         error := some (execFailMsg "m" "boom"), isChunked := some true },
       [⟨"m", buildPrompt ['y']⟩]) :=
  (executeModel_failures_returned failOracle "m" ['y'] nameTagsSchema true).2.1 "boom"
    rfl rfl

/-- C5: `analyzeText` selects backends strictly sequentially by payload
size against the small-context threshold.  At or below it, the four
small-context backends are tried in their fixed order and the first
success is returned without invoking any later backend — when only the
second succeeds, exactly the first and second backends are invoked.
Above it, large-context backend A (Llama4Scout) is tried, then backend B
(MistralSmall3_1), and if both fail the call escalates to chunk-and-merge
with backend A. -/
theorem analyzeText_backend_selection (ai : Oracle) (maxChars : Nat) (schema : ZodType)
    (text : List Char) (hne : text ≠ []) :
    (text.length ≤ maxChars →
      ((executeModel ai Hermes2Pro text schema false).1.success = true →
        analyzeText ai maxChars schema text =
          .ok (executeModel ai Hermes2Pro text schema false)) ∧
      ((executeModel ai Hermes2Pro text schema false).1.success = false →
        (executeModel ai MistralSmall3_1 text schema false).1.success = true →
        analyzeText ai maxChars schema text =
          .ok ((executeModel ai MistralSmall3_1 text schema false).1,
            (executeModel ai Hermes2Pro text schema false).2 ++
            (executeModel ai MistralSmall3_1 text schema false).2)) ∧
      (∀ mc ∈ (executeModel ai Hermes2Pro text schema false).2 ++
          (executeModel ai MistralSmall3_1 text schema false).2,
        mc.model = Hermes2Pro ∨ mc.model = MistralSmall3_1) ∧
      ((executeModel ai Hermes2Pro text schema false).1.success = false →
        (executeModel ai MistralSmall3_1 text schema false).1.success = false →
        (executeModel ai Llama4Scout text schema false).1.success = true →
        analyzeText ai maxChars schema text =
          .ok ((executeModel ai Llama4Scout text schema false).1,
            (executeModel ai Hermes2Pro text schema false).2 ++
            (executeModel ai MistralSmall3_1 text schema false).2 ++
            (executeModel ai Llama4Scout text schema false).2)) ∧
      ((executeModel ai Hermes2Pro text schema false).1.success = false →
        (executeModel ai MistralSmall3_1 text schema false).1.success = false →
        (executeModel ai Llama4Scout text schema false).1.success = false →
        (executeModel ai Llama3_3 text schema false).1.success = true →
        analyzeText ai maxChars schema text =
          .ok ((executeModel ai Llama3_3 text schema false).1,
            (executeModel ai Hermes2Pro text schema false).2 ++
            (executeModel ai MistralSmall3_1 text schema false).2 ++
            (executeModel ai Llama4Scout text schema false).2 ++
            (executeModel ai Llama3_3 text schema false).2))) ∧
    (maxChars < text.length →
      ((executeModel ai Llama4Scout text schema false).1.success = true →
        analyzeText ai maxChars schema text =
          .ok (executeModel ai Llama4Scout text schema false)) ∧
      ((executeModel ai Llama4Scout text schema false).1.success = false →
        (executeModel ai MistralSmall3_1 text schema false).1.success = true →
        analyzeText ai maxChars schema text =
          .ok ((executeModel ai MistralSmall3_1 text schema false).1,
            (executeModel ai Llama4Scout text schema false).2 ++
            (executeModel ai MistralSmall3_1 text schema false).2)) ∧
      ((executeModel ai Llama4Scout text schema false).1.success = false →
        (executeModel ai MistralSmall3_1 text schema false).1.success = false →
        analyzeText ai maxChars schema text =
          .ok ((chunkAndMerge ai maxChars Llama4Scout text schema).1,
            (executeModel ai Llama4Scout text schema false).2 ++
            (executeModel ai MistralSmall3_1 text schema false).2 ++
            (chunkAndMerge ai maxChars Llama4Scout text schema).2))) := by
  constructor
  · intro hlen
    have hnl : ¬ (maxChars < text.length) := Nat.not_lt.mpr hlen
    refine ⟨?_, ?_, ?_, ?_, ?_⟩
    · intro h1
      simp [analyzeText, hne, hnl, h1]
    · intro h1 h2
      simp [analyzeText, hne, hnl, h1, h2]
    · intro mc hmc
      rcases List.mem_append.mp hmc with h | h
      · exact Or.inl (executeModel_calls_model ai Hermes2Pro text schema false mc h)
      · exact Or.inr (executeModel_calls_model ai MistralSmall3_1 text schema false mc h)
    · intro h1 h2 h3
      simp [analyzeText, hne, hnl, h1, h2, h3]
    · intro h1 h2 h3 h4
      simp [analyzeText, hne, hnl, h1, h2, h3, h4]
  · intro hlen
    refine ⟨?_, ?_, ?_⟩
    · intro h1
      simp [analyzeText, hne, hlen, h1]
    · intro h1 h2
      simp [analyzeText, hne, hlen, h1, h2]
    · intro h1 h2
      simp [analyzeText, hne, hlen, h1, h2]

/-- Witness for C5: on a backend where only the second small-context
backend succeeds, the cascade returns that second attempt after invoking
exactly the first two backends. -/
theorem analyzeText_backend_selection_witness :
    analyzeText onlySecondOracle 100 nameTagsSchema ('h' :: ['i']) =
      .ok ((executeModel onlySecondOracle MistralSmall3_1 ('h' :: ['i'])
              nameTagsSchema false).1,
        (executeModel onlySecondOracle Hermes2Pro ('h' :: ['i']) nameTagsSchema false).2 ++
        (executeModel onlySecondOracle MistralSmall3_1 ('h' :: ['i'])
          nameTagsSchema false).2) :=
  (((analyzeText_backend_selection onlySecondOracle 100 nameTagsSchema ('h' :: ['i'])
      (by decide)).1 (by decide)).2.1) rfl rfl

/-- C9: when every backend of the small-context cascade fails, the
returned result is the synthetic failure whose `error` is the message
listing all four attempted backend identifiers and embedding the last
attempt's error, and whose reported backend is the last one tried
(Llama3_3). -/
theorem analyzeText_exhaustion_error (ai : Oracle) (maxChars : Nat) (schema : ZodType)
    (text : List Char) (e4 : String) (hne : text ≠ []) (hlen : text.length ≤ maxChars)
    (h1 : (executeModel ai Hermes2Pro text schema false).1.success = false)
    (h2 : (executeModel ai MistralSmall3_1 text schema false).1.success = false)
    (h3 : (executeModel ai Llama4Scout text schema false).1.success = false)
    (h4 : (executeModel ai Llama3_3 text schema false).1.success = false)
    (he : (executeModel ai Llama3_3 text schema false).1.error = some e4) :
    analyzeText ai maxChars schema text =
      .ok (⟨false, Llama3_3, none, some (allModelsFailedMsg e4), none⟩,
        (executeModel ai Hermes2Pro text schema false).2 ++
        (executeModel ai MistralSmall3_1 text schema false).2 ++
        (executeModel ai Llama4Scout text schema false).2 ++
        (executeModel ai Llama3_3 text schema false).2) := by
  have hnl : ¬ (maxChars < text.length) := Nat.not_lt.mpr hlen
  simp [analyzeText, hne, hnl, h1, h2, h3, h4, errText, he]

/-- Witness for C9: with an always-throwing backend every small-context
attempt fails and the exhaustion record is returned. -/
theorem analyzeText_exhaustion_error_witness :
    analyzeText failOracle 100 nameTagsSchema ('h' :: ['i']) =
      .ok (⟨false, Llama3_3, none,
            some (allModelsFailedMsg (execFailMsg Llama3_3 "boom")), none⟩,
        (executeModel failOracle Hermes2Pro ('h' :: ['i']) nameTagsSchema false).2 ++
        (executeModel failOracle MistralSmall3_1 ('h' :: ['i']) nameTagsSchema false).2 ++
        (executeModel failOracle Llama4Scout ('h' :: ['i']) nameTagsSchema false).2 ++
        (executeModel failOracle Llama3_3 ('h' :: ['i']) nameTagsSchema false).2) :=
  analyzeText_exhaustion_error failOracle 100 nameTagsSchema ('h' :: ['i'])
    (execFailMsg Llama3_3 "boom") (by decide) (by decide) rfl rfl rfl rfl rfl

/-! ## Result-shape lemmas -/

theorem chunkLoop_error_shape (ai : Oracle) (model : String) (schema : ZodType)
    (total : Nat) : ∀ (chs : List (List Char)) (idx : Nat)
    (acc : List (String × Value)) (fm : Option String) (r : ExecResult)
    (t : List ModelCall),
    chunkLoop ai model schema total chs idx acc fm = (.error r, t) →
    r.success = false ∧ r.structuredResult = none ∧ r.isChunked = some true := by
  intro chs
  induction chs with
  | nil => intro idx acc fm r t h; simp [chunkLoop] at h
  | cons ch rest ih =>
      intro idx acc fm r t h
      simp only [chunkLoop] at h
      split at h
      · rw [Prod.mk.injEq] at h
        obtain ⟨h1, _⟩ := h
        injection h1 with h1
        rw [← h1]
        exact ⟨rfl, rfl, rfl⟩
      · rw [Prod.mk.injEq] at h
        obtain ⟨h1, _⟩ := h
        exact ih _ _ _ r _ (Prod.ext h1 rfl)

theorem chunkAndMerge_result_iff (ai : Oracle) (maxChars : Nat) (m : String)
    (text : List Char) (schema : ZodType) :
    ((chunkAndMerge ai maxChars m text schema).1.structuredResult).isSome =
      (chunkAndMerge ai maxChars m text schema).1.success := by
  rw [chunkAndMerge]
  split
  · rename_i r t heq
    obtain ⟨h1, h2, _⟩ := chunkLoop_error_shape ai m schema _ _ _ _ _ r t heq
    simp [h1, h2]
  · split <;> rfl

theorem chunkAndMerge_isChunked (ai : Oracle) (maxChars : Nat) (m : String)
    (text : List Char) (schema : ZodType) :
    (chunkAndMerge ai maxChars m text schema).1.isChunked = some true := by
  rw [chunkAndMerge]
  split
  · rename_i r t heq
    obtain ⟨_, _, h3⟩ := chunkLoop_error_shape ai m schema _ _ _ _ _ r t heq
    simpa using h3
  · split <;> rfl

/-- C7 counterexample: the claim says every extraction path returns a
record whose `isChunked` is a boolean, but the `analyzeText`
cascade-exhaustion record sets no `isChunked` field at all (it reads as
`undefined`, modelled `none`): here a fully failing small-context run
returns a record with `isChunked = none`. -/
theorem analyzeText_exhaustion_isChunked_absent :
    (analyzeText failOracle 10 nameTagsSchema ('h' :: ['i'])).map
      (fun p => p.1.isChunked) = .ok none := rfl

/-- C7 amended: every extraction path returns the uniform record
`{success, modelUsed, structuredResult, error?, isChunked?}` with
`structuredResult` non-null exactly when `success` is true;
`executeModel` and `chunkAndMerge` always set `isChunked` (to the
`isChunk` argument and to `true` respectively), but the `analyzeText`
cascade-exhaustion record omits `isChunked`, and success records omit
`error` rather than carrying `null`. -/
theorem extraction_result_shape (ai : Oracle) (maxChars : Nat) (schema : ZodType)
    (p text : List Char) (m : String) (k : Bool) (r : ExecResult)
    (tr : List ModelCall) :
    ((executeModel ai m p schema k).1.structuredResult.isSome =
      (executeModel ai m p schema k).1.success) ∧
    ((executeModel ai m p schema k).1.isChunked = some k) ∧
    ((chunkAndMerge ai maxChars m text schema).1.structuredResult.isSome =
      (chunkAndMerge ai maxChars m text schema).1.success) ∧
    ((chunkAndMerge ai maxChars m text schema).1.isChunked = some true) ∧
    (analyzeText ai maxChars schema text = .ok (r, tr) →
      r.structuredResult.isSome = r.success) := by
  refine ⟨executeModel_result_iff ai m p schema k, executeModel_isChunked ai m p schema k,
    chunkAndMerge_result_iff ai maxChars m text schema,
    chunkAndMerge_isChunked ai maxChars m text schema, ?_⟩
  intro h
  simp only [analyzeText] at h
  split at h
  · simp at h
  · split at h
    · split at h
      · injection h with h
        rw [Prod.mk.injEq] at h
        rw [← h.1]
        exact executeModel_result_iff ai Llama4Scout text schema false
      · split at h
        · injection h with h
          rw [Prod.mk.injEq] at h
          rw [← h.1]
          exact executeModel_result_iff ai MistralSmall3_1 text schema false
        · injection h with h
          rw [Prod.mk.injEq] at h
          rw [← h.1]
          exact chunkAndMerge_result_iff ai maxChars Llama4Scout text schema
    · split at h
      · injection h with h
        rw [Prod.mk.injEq] at h
        rw [← h.1]
        exact executeModel_result_iff ai Hermes2Pro text schema false
      · split at h
        · injection h with h
          rw [Prod.mk.injEq] at h
          rw [← h.1]
          exact executeModel_result_iff ai MistralSmall3_1 text schema false
        · split at h
          · injection h with h
            rw [Prod.mk.injEq] at h
            rw [← h.1]
            exact executeModel_result_iff ai Llama4Scout text schema false
          · split at h
            · injection h with h
              rw [Prod.mk.injEq] at h
              rw [← h.1]
              exact executeModel_result_iff ai Llama3_3 text schema false
            · injection h with h
              rw [Prod.mk.injEq] at h
              rw [← h.1]
              rfl

/-- Witness for C7 (amended): on a run whose four attempts all fail, the
returned record's `structuredResult` is null exactly as `success` is
false. -/
theorem extraction_result_shape_witness :
    (⟨false, Llama3_3, none,
      some (allModelsFailedMsg (execFailMsg Llama3_3 "boom")), none⟩ :
        ExecResult).structuredResult.isSome =
      (⟨false, Llama3_3, none,
        some (allModelsFailedMsg (execFailMsg Llama3_3 "boom")), none⟩ :
          ExecResult).success :=
  (extraction_result_shape failOracle 100 nameTagsSchema ['x'] ('h' :: ['i']) "m" false
    ⟨false, Llama3_3, none,
      some (allModelsFailedMsg (execFailMsg Llama3_3 "boom")), none⟩
    ((executeModel failOracle Hermes2Pro ('h' :: ['i']) nameTagsSchema false).2 ++
     (executeModel failOracle MistralSmall3_1 ('h' :: ['i']) nameTagsSchema false).2 ++
     (executeModel failOracle Llama4Scout ('h' :: ['i']) nameTagsSchema false).2 ++
     (executeModel failOracle Llama3_3 ('h' :: ['i']) nameTagsSchema false).2)).2.2.2.2
    rfl

/-- C8: for every poll of a batch, a non-completed status envelope is
returned unchanged; on a completed envelope each item is processed
independently by a map — an item that reports success with a truthy
result payload is repaired, a repair failure demotes only that item to
`success:false` with the validation message embedded both in `error` and
in a synthetic `result.response.error`, any other item is normalized to
that same failed shape — and the returned envelope's `status` is always
`"completed"`, untouched by item failures, with sibling items processed
positionally from their own input only. -/
theorem pollBatch_item_isolation (requestId : String) (schema : ZodType) (resp : Value)
    (fields : List (String × Value)) (items : List Value) :
    (isCompleted (getProp resp "status") = false →
      pollBatch requestId resp schema = .ok resp) ∧
    (resp = .vobj fields → isCompleted (getProp resp "status") = true →
      getProp resp "responses" = .varr items →
      pollBatch requestId resp schema =
        .ok (.vobj (jset (jset fields "responses"
          (.varr (items.map (pollProcessItem schema)))) "status" (.vstr "completed"))) ∧
      getProp (.vobj (jset (jset fields "responses"
          (.varr (items.map (pollProcessItem schema)))) "status" (.vstr "completed")))
        "status" = .vstr "completed" ∧
      (∀ i : Nat, (items.map (pollProcessItem schema))[i]? =
        (items[i]?).map (pollProcessItem schema))) ∧
    (∀ item w, truthy (getProp item "success") = true →
      truthy (getProp (getProp item "result") "response") = true →
      fillMissingFields schema (getProp (getProp item "result") "response") = .ok w →
      pollProcessItem schema item =
        .vobj (jset (spreadToObj item) "result" (.vobj [("response", w)]))) ∧
    (∀ item e, truthy (getProp item "success") = true →
      truthy (getProp (getProp item "result") "response") = true →
      fillMissingFields schema (getProp (getProp item "result") "response") = .error e →
      pollProcessItem schema item =
        .vobj (jset (jset (jset (spreadToObj item) "success" (.vbool false))
          "error" (.vstr ("Schema validation failed: " ++ e)))
          "result" (.vobj [("response",
            .vobj [("error", .vstr ("Schema validation failed: " ++ e))])]))) ∧
    (∀ item, (truthy (getProp item "success") = false ∨
        truthy (getProp (getProp item "result") "response") = false) →
      pollProcessItem schema item =
        .vobj (jset (jset (jset (spreadToObj item) "success" (.vbool false))
          "error" (if truthy (getProp item "error") then getProp item "error"
            else .vstr "AI processing failed or result structure invalid."))
          "result" (.vobj [("response", .vobj [("error",
            if truthy (getProp item "error") then getProp item "error"
            else .vstr "AI processing failed or result structure invalid.")])]))) := by
  refine ⟨?_, ?_, ?_, ?_, ?_⟩
  · intro h
    simp [pollBatch, h]
  · intro hobj hst hresp
    subst hobj
    refine ⟨?_, ?_, ?_⟩
    · simp [pollBatch, hst, hresp, spreadToObj]
    · simp [getProp, jget_jset_self]
    · intro i
      simp [List.getElem?_map]
  · intro item w hs hr hf
    simp [pollProcessItem, hs, hr, hf]
  · intro item e hs hr hf
    simp [pollProcessItem, hs, hr, hf]
  · intro item h
    rcases h with h | h
    · simp [pollProcessItem, h]
    · rcases ht : truthy (getProp item "success") with _ | _
      · simp [pollProcessItem, ht]
      · simp [pollProcessItem, ht, h]

/-- Witness for C8: a completed batch of three items where the middle
item's payload fails repair against `{name: string, tags: array}` — the
envelope keeps `status:"completed"`, item 2 is demoted with the error in
both places, items 1 and 3 are repaired untouched. -/
theorem pollBatch_item_isolation_witness :
    pollBatch "req-1"
      (.vobj [("status", .vstr "completed"),
        ("responses", .varr
          [.vobj [("success", .vbool true),
                  ("result", .vobj [("response", .vobj [("name", .vstr "a")])])],
           .vobj [("success", .vbool true),
                  ("result", .vobj [("response", .vobj [("name", .vnum 7)])])],
           .vobj [("success", .vbool true),
                  ("result", .vobj [("response", .vobj [("name", .vstr "c")])])]])])
      nameTagsSchema =
      .ok (.vobj [("status", .vstr "completed"),
        ("responses", .varr
          ([.vobj [("success", .vbool true),
                   ("result", .vobj [("response", .vobj [("name", .vstr "a")])])],
            .vobj [("success", .vbool true),
                   ("result", .vobj [("response", .vobj [("name", .vnum 7)])])],
            .vobj [("success", .vbool true),
                   ("result", .vobj [("response", .vobj [("name", .vstr "c")])])]].map
            (pollProcessItem nameTagsSchema)))]) ∧
    getProp (.vobj [("status", .vstr "completed"),
        ("responses", .varr
          ([.vobj [("success", .vbool true),
                   ("result", .vobj [("response", .vobj [("name", .vstr "a")])])],
            .vobj [("success", .vbool true),
                   ("result", .vobj [("response", .vobj [("name", .vnum 7)])])],
            .vobj [("success", .vbool true),
                   ("result", .vobj [("response", .vobj [("name", .vstr "c")])])]].map
            (pollProcessItem nameTagsSchema)))]) "status" = .vstr "completed" := by
  have happ := (pollBatch_item_isolation "req-1" nameTagsSchema
    (.vobj [("status", .vstr "completed"),
      ("responses", .varr
        [.vobj [("success", .vbool true),
                ("result", .vobj [("response", .vobj [("name", .vstr "a")])])],
         .vobj [("success", .vbool true),
                ("result", .vobj [("response", .vobj [("name", .vnum 7)])])],
         .vobj [("success", .vbool true),
                ("result", .vobj [("response", .vobj [("name", .vstr "c")])])]])])
    [("status", .vstr "completed"),
     ("responses", .varr
       [.vobj [("success", .vbool true),
               ("result", .vobj [("response", .vobj [("name", .vstr "a")])])],
        .vobj [("success", .vbool true),
               ("result", .vobj [("response", .vobj [("name", .vnum 7)])])],
        .vobj [("success", .vbool true),
               ("result", .vobj [("response", .vobj [("name", .vstr "c")])])]])]
    [.vobj [("success", .vbool true),
            ("result", .vobj [("response", .vobj [("name", .vstr "a")])])],
     .vobj [("success", .vbool true),
            ("result", .vobj [("response", .vobj [("name", .vnum 7)])])],
     .vobj [("success", .vbool true),
            ("result", .vobj [("response", .vobj [("name", .vstr "c")])])]]).2.1
    rfl rfl rfl
  exact ⟨happ.1.trans (by rfl), happ.2.1.trans (by rfl)⟩

end SRT
